import Mathlib

/-!
# Verification of the Wio LTE AT-command protocol engine (`wiolte.py`)

A shallow embedding of `LTEModule` from `src/wiolte.py`.  The UART receive
direction is modelled as a finite list of bytes (`List Nat`); exhaustion of
the list stands for "no further byte arrives before the caller-supplied
deadline expires", so a read on the empty remainder is exactly the transport
timeout (the code's `timeout` check as well as a `CancelledError` during the
idle sleep both make the read primitive return `None`).  The transmit
direction is recorded as a trace of written chunks.  Python exceptions
(`TypeError`, `ValueError`, `AssertionError`, `LTEModuleError`) are modelled
with `Except`.  Machine integers do not occur: MicroPython integers are
unbounded, so `Nat`/`Int` are exact.

Loops of the source (`while True:` read loops) are modelled by structurally
recursive functions over an explicit iteration budget; every public wrapper
supplies a budget derived from the remaining input, which is always
sufficient because each loop iteration consumes at least one input byte.
The budget is a model artifact only: `PyErr.outOfFuel` is unreachable for
the budgets supplied by the wrappers.
-/

namespace WioLte

/-- ASCII carriage return, `LTEModule.CR = 0x0d`. -/
def CRb : Nat := 0x0d

/-- ASCII line feed, `LTEModule.LF = 0x0a`. -/
def LFb : Nat := 0x0a

/-- Bytes of an ASCII string literal (UTF-8 irrelevant: all literals in the
source are ASCII). -/
def strBytes (s : String) : List Nat := s.toList.map Char.toNat

/-- A byte list containing neither CR nor LF. -/
def noCRLF (l : List Nat) : Bool := l.all fun c => c != CRb && c != LFb

deriving instance DecidableEq for Except

/-- Python exceptions raised by the modelled code. -/
inductive PyErr where
  | typeError
  | valueError
  | assertionError
  | indexError
  | lteError (msg : String)
  | outOfFuel
deriving DecidableEq, Repr

/-- Value of Python's `int(str(bytes))` on the byte lists this code parses:
an optional leading minus sign followed by one or more ASCII decimal digits;
everything else raises `ValueError` (modelled as `none`). -/
def digitsVal (l : List Nat) : Option Int :=
  if l = [] then none
  else if l.all (fun c => 48 ≤ c && c ≤ 57) then
    some (l.foldl (fun acc c => acc * 10 + ((c : Int) - 48)) 0)
  else none

/-- Python `int()` with optional sign; see `digitsVal`. -/
def pyInt (l : List Nat) : Option Int :=
  match l with
  | 45 :: rest => (digitsVal rest).map (fun n => -n)
  | _ => digitsVal l

/-- An unsolicited result code held in `self.__urcs`; the source only ever
creates `("closed", connect_id)` tuples. -/
inductive Urc where
  | closed (id : Int)
deriving DecidableEq, Repr

/-- A Python value returned by `socket_receive` (the method mixes `bool`,
`int` and `None` returns). -/
inductive PyVal where
  | pyBool (b : Bool)
  | pyInt (n : Int)
  | pyNone
deriving DecidableEq, Repr

/-- The mutable fields of `LTEModule` the socket layer reads and writes:
`self.__connections` and `self.__urcs` (`None` until `turn_on_or_reset`
first runs). -/
structure MState where
  conns : List Int
  urcs : Option (List Urc)
deriving DecidableEq, Repr

/-! ## Line framer: `LTEModule.__read_response_into`

States of the source's byte-by-byte state machine: 0 = Idle, 1 = SawCR,
2 = Collecting, 3 = BufferFull (awaiting CR), 4 = AwaitLF.  `cap` is
`len(buffer) - offset`, the number of body bytes that fit; `acc` is the
portion of the buffer filled so far.  The returned `Nat` is the machine
state at the moment the input was exhausted (the timeout return), exposed
so that properties about *where* a timeout happens are statable; the
source itself returns only `None` there. -/
def readRespAux (cap : Nat) (acc : List Nat) (st : Nat) :
    List Nat → Option (List Nat × List Nat) × Nat
  | [] => (none, st)
  | c :: rest =>
    if st = 0 ∧ c = CRb then readRespAux cap acc 1 rest
    else if st = 1 ∧ c = LFb then readRespAux cap acc 2 rest
    else if st = 1 ∧ c = CRb then readRespAux cap acc 1 rest
    else if st = 1 then readRespAux cap [] 0 rest
    else if st = 2 ∧ c = CRb then
      (if acc.length = 0 then readRespAux cap acc 1 rest
       else readRespAux cap acc 4 rest)
    else if st = 2 then
      (if acc.length + 1 = cap then readRespAux cap (acc ++ [c]) 3 rest
       else readRespAux cap (acc ++ [c]) 2 rest)
    else if st = 3 ∧ c = CRb then readRespAux cap acc 4 rest
    else if st = 4 ∧ c = LFb then (some (acc, rest), 4)
    else readRespAux cap acc st rest

/-- Result of `__read_response_into(buffer, offset, timeout)`: `some (body, rest)`
is a completed line (`body` copied into the buffer, `rest` the unconsumed
bytes); `none` is the timeout return `None`. -/
def read_response_core (cap : Nat) (input : List Nat) :
    Option (List Nat × List Nat) :=
  (readRespAux cap [] 0 input).1

/-- The modem brackets a response body with CR LF pairs (§6 framing). -/
def frameOne (body : List Nat) : List Nat :=
  CRb :: LFb :: (body ++ [CRb, LFb])

/-! ## Framer lemmas -/

lemma noCRLF_cons {b : Nat} {bs : List Nat} (h : noCRLF (b :: bs) = true) :
    b ≠ CRb ∧ b ≠ LFb ∧ noCRLF bs = true := by
  simp only [noCRLF, List.all_cons, Bool.and_eq_true, bne_iff_ne, ne_eq] at h ⊢
  exact ⟨h.1.1, h.1.2, h.2⟩

/-- Collecting a CR/LF-free block of body bytes from state 2 appends it to
the accumulator, landing in state 2, or in state 3 exactly when the buffer
fills. -/
lemma readRespAux_collect (cap : Nat) (bs : List Nat) :
    ∀ (pre : List Nat) (tail : List Nat), noCRLF bs = true →
    pre.length < cap → pre.length + bs.length ≤ cap →
    readRespAux cap pre 2 (bs ++ tail) =
      if pre.length + bs.length = cap then readRespAux cap (pre ++ bs) 3 tail
      else readRespAux cap (pre ++ bs) 2 tail := by
  induction bs with
  | nil =>
    intro pre tail _ hlt _
    simp [Nat.ne_of_lt hlt]
  | cons b bs ih =>
    intro pre tail hb hlt hle
    obtain ⟨hbcr, hblf, hbs⟩ := noCRLF_cons hb
    rw [List.length_cons] at hle
    rw [List.cons_append]
    rw [show readRespAux cap pre 2 (b :: (bs ++ tail)) =
        (if pre.length + 1 = cap then readRespAux cap (pre ++ [b]) 3 (bs ++ tail)
         else readRespAux cap (pre ++ [b]) 2 (bs ++ tail)) by
      simp [readRespAux, hbcr]]
    by_cases hfull : pre.length + 1 = cap
    · have hbs0 : bs = [] := by
        have hl : bs.length = 0 := by omega
        exact List.length_eq_zero.mp hl
      subst hbs0
      simp [hfull]
    · rw [if_neg hfull]
      have hlt' : (pre ++ [b]).length < cap := by
        rw [List.length_append, List.length_singleton]; omega
      have hle' : (pre ++ [b]).length + bs.length ≤ cap := by
        rw [List.length_append, List.length_singleton]; omega
      rw [ih (pre ++ [b]) tail hbs hlt' hle']
      have hlen : (pre ++ [b]).length + bs.length = pre.length + (b :: bs).length := by
        rw [List.length_append, List.length_singleton, List.length_cons]; omega
      rw [hlen, List.append_assoc, List.singleton_append]

/-- From state 2 with an empty accumulator, a nonempty CR/LF-free body that
fits the buffer followed by the CR LF terminator completes the frame. -/
lemma readRespAux_finish (cap : Nat) (body rest : List Nat)
    (hb : noCRLF body = true) (h1 : 1 ≤ body.length) (h2 : body.length ≤ cap) :
    readRespAux cap [] 2 (body ++ (CRb :: LFb :: rest)) = (some (body, rest), 4) := by
  have h0 : (0:Nat) < cap := lt_of_lt_of_le h1 h2
  have hc := readRespAux_collect cap body [] (CRb :: LFb :: rest) hb
    (by simpa using h0) (by simpa using h2)
  rw [hc]
  by_cases hfull : body.length = cap
  · simp only [List.length_nil, Nat.zero_add, hfull, if_pos rfl, List.nil_append]
    simp [readRespAux]
  · have hne : body.length ≠ 0 := by omega
    simp only [List.length_nil, Nat.zero_add, if_neg hfull, List.nil_append]
    simp [readRespAux, hne]

/-- A single framed response at the head of the stream is returned exactly,
with the remaining bytes untouched. -/
lemma read_response_core_frameOne (cap : Nat) (body rest : List Nat)
    (hb : noCRLF body = true) (h1 : 1 ≤ body.length) (h2 : body.length ≤ cap) :
    read_response_core cap (frameOne body ++ rest) = some (body, rest) := by
  unfold read_response_core frameOne
  rw [show (CRb :: LFb :: (body ++ [CRb, LFb])) ++ rest
      = CRb :: LFb :: (body ++ (CRb :: LFb :: rest)) by simp]
  rw [show readRespAux cap [] 0 (CRb :: LFb :: (body ++ (CRb :: LFb :: rest)))
      = readRespAux cap [] 2 (body ++ (CRb :: LFb :: rest)) by simp [readRespAux]]
  rw [readRespAux_finish cap body rest hb h1 h2]

lemma noCRLF_take (j : Nat) (body : List Nat) (h : noCRLF body = true) :
    noCRLF (body.take j) = true := by
  simp only [noCRLF, List.all_eq_true] at h ⊢
  intro c hc
  exact h c (List.take_subset j body hc)

/-- Consuming the leading double CR LF delimiter pair lands the framer in
state 2 (Collecting) with an empty accumulator. -/
lemma readRespAux_delims (cap : Nat) (t : List Nat) :
    readRespAux cap [] 0 (CRb :: LFb :: CRb :: LFb :: t) = readRespAux cap [] 2 t := by
  simp [readRespAux]

/-! ## C8 and C9: line framer input/output behaviour -/

/-- C8 (amended): for a stream `CR LF CR LF <body> CR LF` with a *nonempty*
CR/LF-free body of length at most the buffer capacity, the framer returns
exactly `<body>` and no delimiter bytes, consuming the whole stream. -/
theorem claim_C8_framer_returns_body (cap : Nat) (body : List Nat)
    (hb : noCRLF body = true) (h1 : 1 ≤ body.length) (h2 : body.length ≤ cap) :
    read_response_core cap ([CRb, LFb, CRb, LFb] ++ body ++ [CRb, LFb])
      = some (body, []) := by
  rw [show [CRb, LFb, CRb, LFb] ++ body ++ [CRb, LFb]
      = CRb :: LFb :: CRb :: LFb :: (body ++ (CRb :: LFb :: [])) by simp]
  unfold read_response_core
  rw [readRespAux_delims]
  rw [readRespAux_finish cap body [] hb h1 h2]

/-- C8 witness: the amended theorem applied at `body = "OK"`, `cap = 8`. -/
theorem claim_C8_witness :
    noCRLF [79, 75] = true ∧
    read_response_core 8 ([CRb, LFb, CRb, LFb] ++ [79, 75] ++ [CRb, LFb])
      = some ([79, 75], []) :=
  ⟨by decide, claim_C8_framer_returns_body 8 [79, 75] (by decide) (by decide) (by decide)⟩

/-- C8 counterexample: for the empty body — allowed by the claim, which
quantifies over all body lengths up to the capacity — the framer does *not*
return the empty line; it treats the stream as framing noise and returns
the timeout signal. -/
theorem claim_C8_counterexample :
    read_response_core 8 ([CRb, LFb, CRb, LFb] ++ ([] : List Nat) ++ [CRb, LFb]) = none ∧
    read_response_core 8 ([CRb, LFb, CRb, LFb] ++ ([] : List Nat) ++ [CRb, LFb])
      ≠ some ([], []) ∧
    noCRLF ([] : List Nat) = true ∧ List.length ([] : List Nat) ≤ 8 := by
  decide

/-- C9 (amended): the framer never returns a partial frame — on every proper
prefix of a complete single-frame stream it returns the timeout signal
(`None`), and only the full stream yields the body. -/
theorem claim_C9_timeout_on_incomplete_frame (cap : Nat) (body : List Nat) (k : Nat)
    (hb : noCRLF body = true) (h1 : 1 ≤ body.length) (h2 : body.length ≤ cap)
    (hk : k < 6 + body.length) :
    read_response_core cap (([CRb, LFb, CRb, LFb] ++ body ++ [CRb, LFb]).take k)
      = none := by
  have h0 : (0:Nat) < cap := lt_of_lt_of_le h1 h2
  rcases Nat.lt_or_ge k 5 with hk5 | hk5
  · -- the prefix ends inside the leading delimiters
    interval_cases k <;>
      simp [read_response_core, readRespAux, List.take_append_eq_append_take]
  · obtain ⟨j, rfl⟩ : ∃ j, k = 4 + j := ⟨k - 4, by omega⟩
    have hj1 : 1 ≤ j := by omega
    have hj2 : j ≤ body.length + 1 := by omega
    rw [show [CRb, LFb, CRb, LFb] ++ body ++ [CRb, LFb]
        = [CRb, LFb, CRb, LFb] ++ (body ++ [CRb, LFb]) by simp]
    rw [List.take_append_eq_append_take]
    rw [List.take_of_length_le (by simp)]
    rw [show 4 + j - List.length [CRb, LFb, CRb, LFb] = j by simp]
    rw [show [CRb, LFb, CRb, LFb] ++ (body ++ [CRb, LFb]).take j
        = CRb :: LFb :: CRb :: LFb :: ((body ++ [CRb, LFb]).take j) by simp]
    unfold read_response_core
    rw [readRespAux_delims]
    rcases Nat.lt_or_ge j (body.length + 1) with hjlt | hjge
    · -- still collecting body bytes
      have hjle : j ≤ body.length := by omega
      rw [List.take_append_of_le_length hjle]
      have hcol := readRespAux_collect cap (body.take j) [] []
        (noCRLF_take j body hb) (by simpa using h0)
        (by simp only [List.length_nil, Nat.zero_add, List.length_take]
            exact le_trans (min_le_right _ _) h2)
      simp only [List.append_nil, List.nil_append, List.length_nil, Nat.zero_add] at hcol
      rw [hcol]
      by_cases hfull : (body.take j).length = cap
      · rw [if_pos hfull]; simp [readRespAux]
      · rw [if_neg hfull]; simp [readRespAux]
    · -- body complete, terminating CR seen, LF missing
      have hj : j = body.length + 1 := by omega
      subst hj
      rw [List.take_append_eq_append_take]
      rw [List.take_of_length_le (by omega)]
      rw [show body.length + 1 - body.length = 1 by omega]
      rw [show ([CRb, LFb].take 1) = [CRb] by simp]
      have hcol := readRespAux_collect cap body [] [CRb] hb
        (by simpa using h0) (by simpa using h2)
      simp only [List.append_nil, List.nil_append, List.length_nil, Nat.zero_add] at hcol
      rw [hcol]
      have hne : body.length ≠ 0 := by omega
      by_cases hfull : body.length = cap
      · rw [if_pos hfull]; simp [readRespAux]
      · rw [if_neg hfull]; simp [readRespAux, hne]

/-- C9 witness: the amended theorem applied to the one-byte-short prefix of
a complete `"OK"` frame. -/
theorem claim_C9_witness :
    read_response_core 8 (([CRb, LFb, CRb, LFb] ++ [79, 75] ++ [CRb, LFb]).take 7)
      = none :=
  claim_C9_timeout_on_incomplete_frame 8 [79, 75] 7 (by decide) (by decide)
    (by decide) (by decide)

/-- C9 counterexample: the stream `CR LF 'a'` dries up while the framer is in
state 2 (Collecting) — not Idle (0) or SawCR (1) — and the framer still
returns the timeout signal, contradicting the claim that the timeout signal
is produced only in the Idle or SawCR states. -/
theorem claim_C9_counterexample :
    readRespAux 8 [] 0 [CRb, LFb, 97] = (none, 2) ∧ ¬((2 : Nat) = 0 ∨ (2 : Nat) = 1) := by
  decide

/-! ## URC filter: `LTEModule.read_response_into`

The loop reading framed lines and intercepting `+QIURC: "closed",<id>`
notifications.  The framed line is written at `buffer[offset : offset +
length]`, but the interception check reads the buffer at *absolute*
positions — `mv[0:8]`, `mv[8:16]` and `mv[17:length]` — regardless of
`offset`.  `pre` models `buffer[0:offset]`, the bytes stored below the
write offset (empty for the offset-0 call sites `wait_response` and
`wait_response_into`; the previously returned lines for
`execute_command`'s reads at `index > 0`).  All three slices end at
`max 16 length ≤ offset + length`, so their bytes lie in `pre ++ body`.
The first `Nat` argument is the iteration budget (see the module
docstring); the wrapper `read_response_into` supplies `input.length + 1`,
which always suffices because each intercepted line consumes at least one
input byte. -/
def readRespIntoFuel (cap : Nat) (pre : List Nat) :
    Nat → Option (List Urc) → List Nat →
    Except PyErr (Option (List Nat) × Option (List Urc) × List Nat)
  | 0, _, _ => .error .outOfFuel
  | fuel+1, urcs, input =>
    match read_response_core cap input with
    | none => .ok (none, urcs, [])
    | some (body, rest) =>
      if 8 ≤ body.length ∧ (pre ++ body).take 8 = strBytes "+QIURC: " then
        if 17 < body.length ∧ ((pre ++ body).drop 8).take 8 = strBytes "\"closed\"" then
          match pyInt (((pre ++ body).drop 17).take (body.length - 17)) with
          | none => .error .valueError
          | some id =>
            match urcs with
            | none => .error .typeError
            | some l => readRespIntoFuel cap pre fuel (some (l ++ [Urc.closed id])) rest
        else .ok (some body, urcs, rest)
      else .ok (some body, urcs, rest)

/-- Public line read, `read_response_into(buffer, offset, timeout)`:
returns the next line not recognised as a URC (`some body`), or `none` on
deadline expiry, after queueing every intercepted closed-connection
notification.  `pre` is `buffer[0:offset]` (see `readRespIntoFuel`). -/
def read_response_into (cap : Nat) (pre : List Nat) (urcs : Option (List Urc))
    (input : List Nat) :
    Except PyErr (Option (List Nat) × Option (List Urc) × List Nat) :=
  readRespIntoFuel cap pre (input.length + 1) urcs input

lemma readRespIntoFuel_zero (cap : Nat) (pre : List Nat) (urcs : Option (List Urc))
    (input : List Nat) :
    readRespIntoFuel cap pre 0 urcs input = .error .outOfFuel := rfl

lemma readRespIntoFuel_succ (cap : Nat) (pre : List Nat) (fuel : Nat)
    (urcs : Option (List Urc)) (input : List Nat) :
    readRespIntoFuel cap pre (fuel+1) urcs input =
      match read_response_core cap input with
      | none => .ok (none, urcs, [])
      | some (body, rest) =>
        if 8 ≤ body.length ∧ (pre ++ body).take 8 = strBytes "+QIURC: " then
          if 17 < body.length ∧ ((pre ++ body).drop 8).take 8 = strBytes "\"closed\"" then
            match pyInt (((pre ++ body).drop 17).take (body.length - 17)) with
            | none => .error .valueError
            | some id =>
              match urcs with
              | none => .error .typeError
              | some l => readRespIntoFuel cap pre fuel (some (l ++ [Urc.closed id])) rest
          else .ok (some body, urcs, rest)
        else .ok (some body, urcs, rest) := rfl

/-- `socket_is_connected(connect_id)`: pure local lookup; Python's `and`
short-circuits, so `self.__urcs` is only touched when the id is in
`self.__connections`. -/
def socket_is_connected (conns : List Int) (urcs : Option (List Urc))
    (connect_id : Int) : Except PyErr Bool :=
  if connect_id ∈ conns then
    match urcs with
    | none => .error .typeError
    | some us => .ok (decide (Urc.closed connect_id ∉ us))
  else .ok false

/-! ## Filter lemmas -/

lemma readRespAux_rest_lt (cap : Nat) :
    ∀ (input acc : List Nat) (st : Nat) (body rest : List Nat),
    (readRespAux cap acc st input).1 = some (body, rest) → rest.length < input.length := by
  intro input
  induction input with
  | nil => intro acc st body rest h; simp [readRespAux] at h
  | cons c t ih =>
    intro acc st body rest h
    simp only [readRespAux] at h
    split_ifs at h <;>
      first
        | exact Nat.lt_succ_of_lt (ih _ _ _ _ h)
        | (simp only [Option.some.injEq, Prod.mk.injEq] at h
           obtain ⟨-, rfl⟩ := h
           exact Nat.lt_succ_self _)

lemma read_response_core_rest_lt {cap : Nat} {input body rest : List Nat}
    (h : read_response_core cap input = some (body, rest)) :
    rest.length < input.length :=
  readRespAux_rest_lt cap input [] 0 body rest h

/-- The filter's result does not depend on the budget, provided the budget
exceeds the input length. -/
lemma readRespIntoFuel_irrel (cap : Nat) (pre : List Nat) :
    ∀ (n : Nat) (input : List Nat) (urcs : Option (List Urc)) (f g : Nat),
    input.length < n → input.length < f → input.length < g →
    readRespIntoFuel cap pre f urcs input = readRespIntoFuel cap pre g urcs input := by
  intro n
  induction n with
  | zero => intro input urcs f g hn _ _; omega
  | succ n ih =>
    intro input urcs f g hn hf hg
    match f, g with
    | f'+1, g'+1 =>
      rw [readRespIntoFuel_succ cap pre f', readRespIntoFuel_succ cap pre g']
      cases hcore : read_response_core cap input with
      | none => rfl
      | some pr =>
        obtain ⟨body, rest⟩ := pr
        have hrest := read_response_core_rest_lt hcore
        dsimp only
        split_ifs
        · cases hpy : pyInt (((pre ++ body).drop 17).take (body.length - 17)) with
          | none => rfl
          | some id =>
            cases urcs with
            | none => rfl
            | some l => exact ih rest _ f' g' (by omega) (by omega) (by omega)
        · rfl
        · rfl

/-- Unfolding the wrapper by one budget step. -/
lemma read_response_into_step (cap : Nat) (pre : List Nat)
    (urcs : Option (List Urc)) (input : List Nat) :
    read_response_into cap pre urcs input =
      match read_response_core cap input with
      | none => .ok (none, urcs, [])
      | some (body, rest) =>
        if 8 ≤ body.length ∧ (pre ++ body).take 8 = strBytes "+QIURC: " then
          if 17 < body.length ∧ ((pre ++ body).drop 8).take 8 = strBytes "\"closed\"" then
            match pyInt (((pre ++ body).drop 17).take (body.length - 17)) with
            | none => .error .valueError
            | some id =>
              match urcs with
              | none => .error .typeError
              | some l => read_response_into cap pre (some (l ++ [Urc.closed id])) rest
          else .ok (some body, urcs, rest)
        else .ok (some body, urcs, rest) := by
  conv_lhs => unfold read_response_into
  rw [readRespIntoFuel_succ]
  cases hcore : read_response_core cap input with
  | none => rfl
  | some pr =>
    obtain ⟨body, rest⟩ := pr
    have hrest := read_response_core_rest_lt hcore
    dsimp only
    split_ifs
    · cases hpy : pyInt (((pre ++ body).drop 17).take (body.length - 17)) with
      | none => rfl
      | some id =>
        cases urcs with
        | none => rfl
        | some l =>
          unfold read_response_into
          exact readRespIntoFuel_irrel cap pre (input.length + 1) rest
            (some (l ++ [Urc.closed id])) input.length (rest.length + 1)
            (by omega) (by omega) (by omega)
    · rfl
    · rfl

lemma digitsVal_all {l : List Nat} {n : Int} (h : digitsVal l = some n) :
    l ≠ [] ∧ l.all (fun c => 48 ≤ c && c ≤ 57) = true := by
  unfold digitsVal at h
  split_ifs at h with h1 h2
  · exact ⟨h1, h2⟩

lemma digits_noCRLF {l : List Nat}
    (h : l.all (fun c => 48 ≤ c && c ≤ 57) = true) : noCRLF l = true := by
  simp only [noCRLF, List.all_eq_true, Bool.and_eq_true, decide_eq_true_eq,
    bne_iff_ne, ne_eq, CRb, LFb] at h ⊢
  intro c hc
  obtain ⟨h48, h57⟩ := h c hc
  omega

lemma pyInt_shape {l : List Nat} {n : Int} (h : pyInt l = some n) :
    l ≠ [] ∧ noCRLF l = true := by
  unfold pyInt at h
  split at h
  · rename_i rest
    rw [Option.map_eq_some'] at h
    obtain ⟨m, hm, -⟩ := h
    have hr := digitsVal_all hm
    refine ⟨by simp, ?_⟩
    simp only [noCRLF, List.all_cons, Bool.and_eq_true]
    refine ⟨by rw [CRb, LFb]; decide, ?_⟩
    have := digits_noCRLF hr.2
    simpa [noCRLF] using this
  · have hr := digitsVal_all h
    exact ⟨hr.1, digits_noCRLF hr.2⟩

/-- A line that is not recognised as a closed-connection notification
passes through the URC filter unchanged (offset-0 read: `pre = []`). -/
lemma read_response_into_pass (cap : Nat) (urcs : Option (List Urc))
    (body rest : List Nat)
    (hb : noCRLF body = true) (h1 : 1 ≤ body.length) (h2 : body.length ≤ cap)
    (hnq : ¬(8 ≤ body.length ∧ body.take 8 = strBytes "+QIURC: ") ∨
           ¬(17 < body.length ∧ (body.drop 8).take 8 = strBytes "\"closed\"")) :
    read_response_into cap [] urcs (frameOne body ++ rest)
      = .ok (some body, urcs, rest) := by
  rw [read_response_into_step]
  rw [read_response_core_frameOne cap body rest hb h1 h2]
  dsimp only
  simp only [List.nil_append]
  rcases hnq with h | h
  · rw [if_neg h]
  · by_cases hq : (8 ≤ body.length ∧ body.take 8 = strBytes "+QIURC: ")
    · rw [if_pos hq, if_neg h]
    · rw [if_neg hq]

/-! ## `LTEModule.wait_response` -/

lemma readRespIntoFuel_some_lt (cap : Nat) (pre : List Nat) :
    ∀ (fuel : Nat) (urcs : Option (List Urc)) (input body : List Nat)
      (urcs' : Option (List Urc)) (rest : List Nat),
    readRespIntoFuel cap pre fuel urcs input = .ok (some body, urcs', rest) →
    rest.length < input.length := by
  intro fuel
  induction fuel with
  | zero => intro urcs input body u' r h; rw [readRespIntoFuel_zero] at h; simp at h
  | succ f ih =>
    intro urcs input body u' r h
    rw [readRespIntoFuel_succ] at h
    cases hcore : read_response_core cap input with
    | none => rw [hcore] at h; simp at h
    | some pr =>
      obtain ⟨b, rest0⟩ := pr
      rw [hcore] at h
      have hlt := read_response_core_rest_lt hcore
      dsimp only at h
      split_ifs at h
      · cases hpy : pyInt (((pre ++ b).drop 17).take (b.length - 17)) with
        | none => rw [hpy] at h; simp at h
        | some id =>
          rw [hpy] at h
          cases urcs with
          | none => simp at h
          | some l => exact lt_trans (ih _ _ _ _ _ h) hlt
      all_goals
        simp only [Except.ok.injEq, Prod.mk.injEq, Option.some.injEq] at h
        obtain ⟨-, -, rfl⟩ := h
        exact hlt

lemma readRespIntoFuel_none_nil (cap : Nat) (pre : List Nat) :
    ∀ (fuel : Nat) (urcs : Option (List Urc)) (input : List Nat)
      (urcs' : Option (List Urc)) (rest : List Nat),
    readRespIntoFuel cap pre fuel urcs input = .ok (none, urcs', rest) →
    rest = [] := by
  intro fuel
  induction fuel with
  | zero => intro urcs input u' r h; rw [readRespIntoFuel_zero] at h; simp at h
  | succ f ih =>
    intro urcs input u' r h
    rw [readRespIntoFuel_succ] at h
    cases hcore : read_response_core cap input with
    | none =>
      rw [hcore] at h
      simp only [Except.ok.injEq, Prod.mk.injEq] at h
      exact h.2.2.symm
    | some pr =>
      obtain ⟨b, rest0⟩ := pr
      rw [hcore] at h
      dsimp only at h
      split_ifs at h
      · cases hpy : pyInt (((pre ++ b).drop 17).take (b.length - 17)) with
        | none => rw [hpy] at h; simp at h
        | some id =>
          rw [hpy] at h
          cases urcs with
          | none => simp at h
          | some l => exact ih _ _ _ _ h
      all_goals simp at h

/-- Loop body of `wait_response(expected_response, max_response_size,
timeout)`: read filtered lines until one starts with `expected_response`
(then return it) or the read times out (then return `None`).  The method
allocates a fresh buffer and always reads at offset 0, so `pre = []`. -/
def waitRespFuel (cap : Nat) (expected : List Nat) :
    Nat → Option (List Urc) → List Nat →
    Except PyErr (Option (List Nat) × Option (List Urc) × List Nat)
  | 0, _, _ => .error .outOfFuel
  | fuel+1, urcs, input =>
    match read_response_into cap [] urcs input with
    | .error e => .error e
    | .ok (none, u, rest) => .ok (none, u, rest)
    | .ok (some body, u, rest) =>
      if expected.length ≤ body.length ∧ body.take expected.length = expected then
        .ok (some body, u, rest)
      else waitRespFuel cap expected fuel u rest

/-- Public `wait_response`; the budget `input.length + 1` always suffices
because every discarded line consumes input bytes. -/
def wait_response (cap : Nat) (expected : List Nat) (urcs : Option (List Urc))
    (input : List Nat) :
    Except PyErr (Option (List Nat) × Option (List Urc) × List Nat) :=
  waitRespFuel cap expected (input.length + 1) urcs input

lemma waitRespFuel_irrel (cap : Nat) (expected : List Nat) :
    ∀ (n : Nat) (input : List Nat) (urcs : Option (List Urc)) (f g : Nat),
    input.length < n → input.length < f → input.length < g →
    waitRespFuel cap expected f urcs input = waitRespFuel cap expected g urcs input := by
  intro n
  induction n with
  | zero => intro input urcs f g hn _ _; omega
  | succ n ih =>
    intro input urcs f g hn hf hg
    match f, g with
    | f'+1, g'+1 =>
      simp only [waitRespFuel]
      cases hread : read_response_into cap [] urcs input with
      | error e => rfl
      | ok tr =>
        obtain ⟨x, u, rest⟩ := tr
        cases x with
        | none => rfl
        | some body =>
          have hlt : rest.length < input.length :=
            readRespIntoFuel_some_lt cap [] _ _ _ _ _ _ hread
          dsimp only
          split_ifs
          · rfl
          · exact ih rest u f' g' (by omega) (by omega) (by omega)

/-- Unfolding `wait_response` by one line. -/
lemma wait_response_step (cap : Nat) (expected : List Nat)
    (urcs : Option (List Urc)) (input : List Nat) :
    wait_response cap expected urcs input =
      match read_response_into cap [] urcs input with
      | .error e => .error e
      | .ok (none, u, rest) => .ok (none, u, rest)
      | .ok (some body, u, rest) =>
        if expected.length ≤ body.length ∧ body.take expected.length = expected then
          .ok (some body, u, rest)
        else wait_response cap expected u rest := by
  conv_lhs => unfold wait_response
  simp only [waitRespFuel]
  cases hread : read_response_into cap [] urcs input with
  | error e => rfl
  | ok tr =>
    obtain ⟨x, u, rest⟩ := tr
    cases x with
    | none => rfl
    | some body =>
      have hlt : rest.length < input.length :=
        readRespIntoFuel_some_lt cap [] _ _ _ _ _ _ hread
      dsimp only
      split_ifs
      · rfl
      · unfold wait_response
        exact waitRespFuel_irrel cap expected (input.length + 1) rest u
          input.length (rest.length + 1) (by omega) (by omega) (by omega)

/-! ## `LTEModule.wait_prompt` (C7)

The source scans raw bytes against `expected_prompt`, resetting `index` to
0 on any mismatching byte (the mismatching byte itself is consumed and not
re-examined).  The model additionally returns the unconsumed remainder of
the stream so that callers can be composed; the source returns only the
boolean. -/
def wait_prompt (expected : List Nat) : Nat → List Nat → Bool × List Nat
  | _, [] => (false, [])
  | index, c :: rest =>
    if expected[index]? = some c then
      (if index + 1 = expected.length then (true, rest)
       else wait_prompt expected (index + 1) rest)
    else wait_prompt expected 0 rest

/-- Containment of `pat` as a contiguous subsequence, the property the spec
claims `wait_prompt` decides. -/
def containsSeq (pat : List Nat) : List Nat → Bool
  | [] => decide (pat = [])
  | c :: rest => decide ((c :: rest).take pat.length = pat) || containsSeq pat rest

lemma containsSeq_of_take {pat l : List Nat} (h : l.take pat.length = pat) :
    containsSeq pat l = true := by
  cases l with
  | nil =>
    simp only [List.take_nil] at h
    simp [containsSeq, h.symm]
  | cons c rest => simp [containsSeq, h]

lemma containsSeq_append_left {pat l : List Nat} (a : List Nat)
    (h : containsSeq pat l = true) : containsSeq pat (a ++ l) = true := by
  induction a with
  | nil => simpa using h
  | cons x a ih =>
    rw [List.cons_append]
    unfold containsSeq
    rw [Bool.or_eq_true]
    exact Or.inr ih

lemma wait_prompt_sound (expected : List Nat) :
    ∀ (input : List Nat) (idx : Nat),
    (wait_prompt expected idx input).1 = true →
    containsSeq expected (expected.take idx ++ input) = true := by
  intro input
  induction input with
  | nil => intro idx h; simp [wait_prompt] at h
  | cons c rest ih =>
    intro idx h
    simp only [wait_prompt] at h
    by_cases hc : expected[idx]? = some c
    · rw [if_pos hc] at h
      have hidx : idx < expected.length := by
        have := List.getElem?_eq_some_iff.mp hc
        exact this.1
      have htake : expected.take (idx + 1) = expected.take idx ++ [c] := by
        rw [List.take_succ, hc]
        rfl
      by_cases hdone : idx + 1 = expected.length
      · have hexp : expected = expected.take idx ++ [c] := by
          rw [← htake, hdone, List.take_length]
        refine containsSeq_of_take ?_
        calc (expected.take idx ++ (c :: rest)).take expected.length
            = ((expected.take idx ++ [c]) ++ rest).take (expected.take idx ++ [c]).length := by
              rw [List.append_assoc, List.singleton_append, ← hexp]
          _ = expected.take idx ++ [c] := List.take_left _ _
          _ = expected := hexp.symm
      · rw [if_neg hdone] at h
        have := ih (idx + 1) h
        rw [htake, List.append_assoc, List.singleton_append] at this
        exact this
    · rw [if_neg hc] at h
      have := ih 0 h
      simp only [List.take_zero, List.nil_append] at this
      have : containsSeq expected ((expected.take idx ++ [c]) ++ rest) = true :=
        containsSeq_append_left _ this
      rwa [List.append_assoc, List.singleton_append] at this

/-- C7 (amended): `wait_prompt` is sound — whenever it reports a match, the
delivered bytes do contain the literal as a contiguous subsequence — and on
a mismatching byte it resets the match index to 0, consuming that byte.
The converse of soundness fails (see the counterexample): the naive reset
discards the mismatching byte, so an overlapping occurrence can be missed. -/
theorem claim_C7_prompt_scan_sound :
    (∀ (expected input : List Nat), (wait_prompt expected 0 input).1 = true →
      containsSeq expected input = true) ∧
    (∀ (expected : List Nat) (idx c : Nat) (rest : List Nat),
      expected[idx]? ≠ some c →
      wait_prompt expected idx (c :: rest) = wait_prompt expected 0 rest) := by
  constructor
  · intro expected input h
    have := wait_prompt_sound expected input 0 h
    simpa using this
  · intro expected idx c rest hne
    simp only [wait_prompt, if_neg hne]

/-- C7 witness: soundness applied at prompt `"> "` arriving verbatim. -/
theorem claim_C7_witness :
    (wait_prompt [62, 32] 0 [62, 32]).1 = true ∧
    containsSeq [62, 32] [62, 32] = true :=
  ⟨by decide, claim_C7_prompt_scan_sound.1 [62, 32] [62, 32] (by decide)⟩

/-- C7 counterexample: the bytes `"aab"` contain the prompt `"ab"` as a
contiguous subsequence, yet `wait_prompt` reports no match before the
stream dries up: after matching the first `'a'`, the second `'a'` resets
the index and is consumed, so the occurrence starting at position 1 is
missed.  This refutes the claimed "if and only if". -/
theorem claim_C7_counterexample :
    (wait_prompt [97, 98] 0 [97, 97, 98]).1 = false ∧
    containsSeq [97, 98] [97, 97, 98] = true := by
  decide

/-! ## `LTEModule.execute_command`

All call sites in scope use the membership matcher
`lambda mv: mv in expected_response_list`; the model fixes that matcher.
Each accepted line advances the write offset (`index += length`), so the
next `read_response_into(response_buffer, index)` call reads with capacity
`bufLen - index` while the buffer below the offset holds the concatenation
of the lines accepted so far — that concatenation is the `pre` argument
passed to the URC filter, whose interception check reads those absolute
positions (see `readRespIntoFuel`).  The command write itself is recorded
by each caller as `write_command_chunk cmd`. -/
def execCmdFuel (bufLen : Nat) (expectedList : List (List Nat)) :
    Nat → List Nat → List (List Nat) → Option (List Urc) → List Nat →
    Except PyErr ((Bool × List (List Nat)) × Option (List Urc) × List Nat)
  | 0, _, _, _, _ => .error .outOfFuel
  | fuel+1, pre, acc, urcs, input =>
    match read_response_into (bufLen - pre.length) pre urcs input with
    | .error e => .error e
    | .ok (none, u, rest) => .ok ((false, acc), u, rest)
    | .ok (some body, u, rest) =>
      if body ∈ expectedList then .ok ((true, acc ++ [body]), u, rest)
      else execCmdFuel bufLen expectedList fuel (pre ++ body) (acc ++ [body]) u rest

/-- Public `execute_command(command, response_buffer, ...)` (all call
sites pass `index = 0` and a fresh or fully reusable buffer, so the stored
prefix starts empty); returns the `(success, responses)` pair together
with the updated URC queue and the unconsumed bytes. -/
def execute_command (bufLen : Nat) (expectedList : List (List Nat))
    (urcs : Option (List Urc)) (input : List Nat) :
    Except PyErr ((Bool × List (List Nat)) × Option (List Urc) × List Nat) :=
  execCmdFuel bufLen expectedList (input.length + 1) [] [] urcs input

lemma execCmdFuel_succ (bufLen : Nat) (expectedList : List (List Nat)) (fuel : Nat)
    (pre : List Nat) (acc : List (List Nat)) (urcs : Option (List Urc))
    (input : List Nat) :
    execCmdFuel bufLen expectedList (fuel+1) pre acc urcs input =
      match read_response_into (bufLen - pre.length) pre urcs input with
      | .error e => .error e
      | .ok (none, u, rest) => .ok ((false, acc), u, rest)
      | .ok (some body, u, rest) =>
        if body ∈ expectedList then .ok ((true, acc ++ [body]), u, rest)
        else execCmdFuel bufLen expectedList fuel (pre ++ body) (acc ++ [body]) u rest :=
  rfl

/-- C2 (code bug): `read_response_into` writes each line at
`buffer[offset : offset + length]` but checks the URC pattern at absolute
buffer positions `mv[0:8]`, `mv[8:16]`, `mv[17:length]`, ignoring `offset`.
`execute_command` reads at `offset = index > 0` after its first accepted
line, so there a closed-connection notification is *not* intercepted: with
reply lines `FIRST`, `+QIURC: "closed",1`, `OK`, the notification is
returned among the caller's responses, the pending-events queue stays
empty, and `socket_is_connected 1` remains `true` afterwards (first and
second conjuncts) — against the claim that such a line is never surfaced
and the connection immediately reads closed.  The behaviour the claim
describes is the evident intent: the very same line arriving in an
offset-0 read (the `wait_response` path, third conjunct) *is* intercepted
and queued. -/
theorem claim_C2_closed_urc_missed_at_offset :
    (execute_command 1024 [strBytes "OK"] (some [])
        (frameOne (strBytes "FIRST")
          ++ (frameOne (strBytes "+QIURC: \"closed\",1") ++ frameOne (strBytes "OK")))
      = .ok ((true, [strBytes "FIRST", strBytes "+QIURC: \"closed\",1", strBytes "OK"]),
          some [], [])) ∧
    socket_is_connected [1] (some []) 1 = .ok true ∧
    read_response_into 1024 [] (some []) (frameOne (strBytes "+QIURC: \"closed\",1"))
      = .ok (none, some [Urc.closed 1], []) := by
  decide

/-- Bytes placed on the wire by `write_command`: the command then `'\r'`. -/
def write_command_chunk (cmd : List Nat) : List Nat := cmd ++ [CRb]

/-- Python `str(bytes).split(',')` at the byte level. -/
def splitOnByte (sep : Nat) : List Nat → List (List Nat)
  | [] => [[]]
  | c :: rest =>
    let r := splitOnByte sep rest
    if c = sep then [] :: r
    else
      match r with
      | h :: t => (c :: h) :: t
      | [] => [[c]]

/-- Python `str(bytes)` for ASCII content (used for error-message text). -/
def bytesStr (l : List Nat) : String := String.mk (l.map Char.ofNat)

/-! ## Socket operations -/

/-- Result of one modelled method call: the returned value or raised
exception, the module state after the call, the chunks written to the
UART during the call, and the unconsumed receive bytes. -/
structure OpOut (α : Type) where
  val : Except PyErr α
  st : MState
  trace : List (List Nat)
  rest : List Nat
deriving DecidableEq, Repr

/-- `socket_close(connect_id, timeout)`.  An id outside `[0, 12]` fails the
entry assertion; an id not locally open returns `False` at once with no
transport traffic; otherwise `AT+QICLOSE` is written, the `OK` wait's
outcome is discarded, and the id is removed from the local list. -/
def socket_close (st : MState) (connect_id : Int) (input : List Nat) : OpOut Bool :=
  if ¬(0 ≤ connect_id ∧ connect_id ≤ 12) then ⟨.error .assertionError, st, [], input⟩
  else if connect_id ∈ st.conns then
    let cmd := strBytes ("AT+QICLOSE=" ++ toString connect_id)
    match wait_response 1024 (strBytes "OK") st.urcs input with
    | .error e => ⟨.error e, st, [write_command_chunk cmd], input⟩
    | .ok (_, u', rest) =>
      ⟨.ok true, ⟨st.conns.erase connect_id, u'⟩, [write_command_chunk cmd], rest⟩
  else ⟨.ok false, st, [], input⟩

/-- Iteration of `__process_remaining_urcs`: Python's `for` loop walks the
live `self.__urcs` list by position while `socket_close` may append to it,
so the loop is modelled with an explicit position `i` over the current
list.  The budget is a model artifact: every event appended during the
walk consumed at least one input byte, so `urcs.length + input.length + 1`
suffices. -/
def processUrcsAux :
    Nat → List Urc → Nat → List Nat → List (List Nat) → List Int →
    Except PyErr (List Int × List Urc × List (List Nat) × List Nat)
  | fuel, urcsList, i, input, trace, conns =>
    if i < urcsList.length then
      match fuel with
      | 0 => .error .outOfFuel
      | fuel+1 =>
        match urcsList[i]? with
        | some (Urc.closed id) =>
          let out := socket_close ⟨conns, some urcsList⟩ id input
          match out.val with
          | .error e => .error e
          | .ok _ =>
            match out.st.urcs with
            | some l' =>
              processUrcsAux fuel l' (i+1) out.rest (trace ++ out.trace) out.st.conns
            | none => .error .typeError
        | none => .error .indexError
    else .ok (conns, [], trace, input)

/-- `__process_remaining_urcs(timeout)`: drains the queue (closing each
connection named by a closed event) and clears it; iterating `None`
raises `TypeError`. -/
def process_remaining_urcs (st : MState) (input : List Nat) :
    Except PyErr (MState × List (List Nat) × List Nat) :=
  match st.urcs with
  | none => .error .typeError
  | some l =>
    match processUrcsAux (l.length + input.length + 1) l 0 input [] st.conns with
    | .error e => .error e
    | .ok (conns', l', trace, rest) => .ok (⟨conns', some l'⟩, trace, rest)

/-- With an empty pending queue the drain is a no-op. -/
lemma process_remaining_urcs_nil (conns : List Int) (input : List Nat) :
    process_remaining_urcs ⟨conns, some []⟩ input = .ok (⟨conns, some []⟩, [], input) :=
  rfl

/-- `socket_send(connect_id, data, offset, length, timeout)`. -/
def socket_send (st : MState) (connect_id : Int) (data : List Nat)
    (offset : Nat) (lengthArg : Option Nat) (input : List Nat) : OpOut Bool :=
  if ¬(0 ≤ connect_id ∧ connect_id ≤ 12) then ⟨.error .assertionError, st, [], input⟩
  else
    match process_remaining_urcs st input with
    | .error e => ⟨.error e, st, [], input⟩
    | .ok (st1, tr1, rest1) =>
      if connect_id ∈ st1.conns then
        let length := lengthArg.getD data.length
        if length = 0 then ⟨.ok true, st1, tr1, rest1⟩
        else if ¬(length ≤ 1460) then ⟨.error .assertionError, st1, tr1, rest1⟩
        else
          let cmd := strBytes ("AT+QISEND=" ++ toString connect_id ++ ","
            ++ toString length)
          let tr2 := tr1 ++ [write_command_chunk cmd]
          match wait_prompt (strBytes "> ") 0 rest1 with
          | (false, rest2) => ⟨.ok false, st1, tr2, rest2⟩
          | (true, rest2) =>
            let payload := (data.drop offset).take length
            let tr3 := tr2 ++ [payload]
            match wait_response 1024 (strBytes "SEND OK") st1.urcs rest2 with
            | .error e => ⟨.error e, st1, tr3, rest2⟩
            | .ok (res, u', rest3) =>
              ⟨.ok res.isSome, ⟨st1.conns, u'⟩, tr3, rest3⟩
      else ⟨.ok false, st1, tr1, rest1⟩

/-- `socket_receive(connect_id, buffer, offset, length, timeout)`.  The
buffer is abstracted by its length `bufLen`; `uart.readinto(mv[offset:
offset+length], actual_length)` delivers
`min(actual_length, min(slice size, bytes available))` bytes. -/
def socket_receive (st : MState) (connect_id : Int) (bufLen : Nat)
    (offset : Nat) (lengthArg : Option Nat) (input : List Nat) : OpOut PyVal :=
  if ¬(0 ≤ connect_id ∧ connect_id ≤ 12) then ⟨.error .assertionError, st, [], input⟩
  else
    match process_remaining_urcs st input with
    | .error e => ⟨.error e, st, [], input⟩
    | .ok (st1, tr1, rest1) =>
      if connect_id ∈ st1.conns then
        let length := lengthArg.getD bufLen
        if length = 0 then ⟨.ok (PyVal.pyBool true), st1, tr1, rest1⟩
        else if ¬(length ≤ 1460) then ⟨.error .assertionError, st1, tr1, rest1⟩
        else
          let cmd := strBytes ("AT+QIRD=" ++ toString connect_id ++ ","
            ++ toString length)
          let tr2 := tr1 ++ [write_command_chunk cmd]
          match wait_response 1024 (strBytes "+QIRD: ") st1.urcs rest1 with
          | .error e => ⟨.error e, st1, tr2, rest1⟩
          | .ok (none, u1, rest2) => ⟨.ok PyVal.pyNone, ⟨st1.conns, u1⟩, tr2, rest2⟩
          | .ok (some resp, u1, rest2) =>
            match pyInt (resp.drop 7) with
            | none => ⟨.error .valueError, ⟨st1.conns, u1⟩, tr2, rest2⟩
            | some actual =>
              if actual = 0 then
                match wait_response 1024 (strBytes "OK") u1 rest2 with
                | .error e => ⟨.error e, ⟨st1.conns, u1⟩, tr2, rest2⟩
                | .ok (some _, u2, rest3) =>
                  ⟨.ok (PyVal.pyInt 0), ⟨st1.conns, u2⟩, tr2, rest3⟩
                | .ok (none, u2, rest3) =>
                  ⟨.ok PyVal.pyNone, ⟨st1.conns, u2⟩, tr2, rest3⟩
              else
                let sliceLen := min length (bufLen - offset)
                let bytesRead := min (min actual.toNat sliceLen) rest2.length
                let rest3 := rest2.drop bytesRead
                if (bytesRead : Int) = actual then
                  match wait_response 1024 (strBytes "OK") u1 rest3 with
                  | .error e => ⟨.error e, ⟨st1.conns, u1⟩, tr2, rest3⟩
                  | .ok (some _, u2, rest4) =>
                    ⟨.ok (PyVal.pyInt actual), ⟨st1.conns, u2⟩, tr2, rest4⟩
                  | .ok (none, u2, rest4) =>
                    ⟨.ok PyVal.pyNone, ⟨st1.conns, u2⟩, tr2, rest4⟩
                else ⟨.ok PyVal.pyNone, ⟨st1.conns, u1⟩, tr2, rest3⟩
      else ⟨.ok (PyVal.pyBool false), st1, tr1, rest1⟩

/-- Parse of the `AT+QISTATE?` response lines: every line starting with
`+QISTATE: ` contributes `int` of the text before the first comma. -/
def qistateIds : List (List Nat) → Except PyErr (List Int)
  | [] => .ok []
  | r :: rs =>
    if 10 ≤ r.length ∧ r.take 10 = strBytes "+QISTATE: " then
      match pyInt ((r.drop 10).takeWhile (fun c => c != 44)) with
      | none => .error .valueError
      | some id => (qistateIds rs).map (fun l => id :: l)
    else qistateIds rs

/-- The allocation loop `for connect_id in range(12): ...` — the first
identifier absent from both the device listing and the local list.  `i` is
the current candidate and `d` the number of candidates left to try
(`MAX_CONNECT_ID = 12` at the call site). -/
def findFreeId (inUse conns : List Int) : Nat → Nat → Option Nat
  | _, 0 => none
  | i, d+1 =>
    if ¬((i : Int) ∈ inUse) ∧ ¬((i : Int) ∈ conns) then some i
    else findFreeId inUse conns (i+1) d

/-- `socket_open(host, port, socket_type, timeout)`.  The returned pair is
the allocated connect id together with the parsed in-use set (the latter is
a ghost output exposing the intermediate `connect_id_in_use` so allocation
properties are statable; the source returns only the id). -/
def socket_open (st : MState) (host : String) (port : Int) (socket_type : Int)
    (input : List Nat) : OpOut (Nat × List Int) :=
  if ¬(0 ≤ port ∧ port ≤ 65535) then ⟨.error .assertionError, st, [], input⟩
  else if ¬(socket_type = 0 ∨ socket_type = 1) then ⟨.error .assertionError, st, [], input⟩
  else
    match process_remaining_urcs st input with
    | .error e => ⟨.error e, st, [], input⟩
    | .ok (st1, tr1, rest1) =>
      let tr2 := tr1 ++ [write_command_chunk (strBytes "AT+QISTATE?")]
      match execute_command 1024 [strBytes "OK"] st1.urcs rest1 with
      | .error e => ⟨.error e, st1, tr2, rest1⟩
      | .ok ((success, responses), u1, rest2) =>
        if ¬success then
          ⟨.error (.lteError "Failed to get socket status"), ⟨st1.conns, u1⟩, tr2, rest2⟩
        else
          match qistateIds responses with
          | .error e => ⟨.error e, ⟨st1.conns, u1⟩, tr2, rest2⟩
          | .ok inUse =>
            match findFreeId inUse st1.conns 0 12 with
            | none =>
              ⟨.error (.lteError "No connection resources available."),
                ⟨st1.conns, u1⟩, tr2, rest2⟩
            | some newId =>
              let typeName := if socket_type = 0 then "TCP" else "UDP"
              let ocmd := strBytes ("AT+QIOPEN=1," ++ toString newId ++ ",\""
                ++ typeName ++ "\",\"" ++ host ++ "\"," ++ toString port ++ ",0,0")
              let tr3 := tr2 ++ [write_command_chunk ocmd]
              match wait_response 1024 (strBytes "OK") u1 rest2 with
              | .error e => ⟨.error e, ⟨st1.conns, u1⟩, tr3, rest2⟩
              | .ok (none, u2, rest3) =>
                ⟨.error (.lteError "Failed to open socket. OK"), ⟨st1.conns, u2⟩, tr3, rest3⟩
              | .ok (some _, u2, rest3) =>
                match wait_response 1024
                    (strBytes ("+QIOPEN: " ++ toString newId ++ ",")) u2 rest3 with
                | .error e => ⟨.error e, ⟨st1.conns, u2⟩, tr3, rest3⟩
                | .ok (none, u3, rest4) =>
                  ⟨.error (.lteError "Failed to open socket. QIOPEN"),
                    ⟨st1.conns, u3⟩, tr3, rest4⟩
                | .ok (some resp, u3, rest4) =>
                  match (splitOnByte 44 resp)[1]? with
                  | none => ⟨.error .indexError, ⟨st1.conns, u3⟩, tr3, rest4⟩
                  | some errFld =>
                    if errFld ≠ strBytes "0" then
                      ⟨.error (.lteError ("Failed to open socket. error="
                          ++ bytesStr errFld)), ⟨st1.conns, u3⟩, tr3, rest4⟩
                    else
                      ⟨.ok (newId, inUse), ⟨st1.conns ++ [(newId : Int)], u3⟩,
                        tr3, rest4⟩

/-- DNS-answer collection loop of `get_ip_address`: up to `count` waits for
`+QIURC: "dnsgip",` lines, each contributing the address between byte 18
and the final byte (stripping the double quotes). -/
def getIpLoop : Nat → Option (List Urc) → List Nat → List (List Nat) →
    Except PyErr (List (List Nat) × Option (List Urc) × List Nat)
  | 0, u, input, acc => .ok (acc, u, input)
  | k+1, u, input, acc =>
    match wait_response 1024 (strBytes "+QIURC: \"dnsgip\",") u input with
    | .error e => .error e
    | .ok (none, u1, rest) => getIpLoop k u1 rest acc
    | .ok (some mv, u1, rest) => getIpLoop k u1 rest (acc ++ [(mv.drop 18).dropLast])

/-- Body of the `try:` block of `get_ip_address`: query, wait for the
`dnsgip` notification, parse the error and count fields, collect answers. -/
def get_ip_try (st1 : MState) (host : String) (tr1 : List (List Nat))
    (input : List Nat) : OpOut (Option (List (List Nat))) :=
  let cmd := strBytes ("AT+QIDNSGIP=1,\"" ++ host ++ "\"")
  let tr2 := tr1 ++ [write_command_chunk cmd]
  match wait_response 1024 (strBytes "OK") st1.urcs input with
  | .error e => ⟨.error e, st1, tr2, input⟩
  | .ok (none, u1, rest1) =>
    ⟨.error (.lteError "Failed to get IP."), ⟨st1.conns, u1⟩, tr2, rest1⟩
  | .ok (some _, u1, rest1) =>
    match wait_response 1024 (strBytes "+QIURC: \"dnsgip\"") u1 rest1 with
    | .error e => ⟨.error e, ⟨st1.conns, u1⟩, tr2, rest1⟩
    | .ok (none, u2, rest2) => ⟨.ok none, ⟨st1.conns, u2⟩, tr2, rest2⟩
    | .ok (some resp, u2, rest2) =>
      let fields := splitOnByte 44 resp
      if fields.length < 4 then ⟨.ok none, ⟨st1.conns, u2⟩, tr2, rest2⟩
      else
        match pyInt (fields.getD 1 []) with
        | none => ⟨.error .valueError, ⟨st1.conns, u2⟩, tr2, rest2⟩
        | some errf =>
          if errf ≠ 0 then ⟨.ok none, ⟨st1.conns, u2⟩, tr2, rest2⟩
          else
            match pyInt (fields.getD 2 []) with
            | none => ⟨.error .valueError, ⟨st1.conns, u2⟩, tr2, rest2⟩
            | some count =>
              match getIpLoop count.toNat u2 rest2 [] with
              | .error e => ⟨.error e, ⟨st1.conns, u2⟩, tr2, rest2⟩
              | .ok (ips, u3, rest3) => ⟨.ok (some ips), ⟨st1.conns, u3⟩, tr2, rest3⟩

/-- `get_ip_address(host, timeout)`: drains URCs, then runs the DNS query
with `except ValueError: return None` (a `ValueError` raised anywhere in
the body — including by the URC filter's id parse — yields `None`). -/
def get_ip_address (st : MState) (host : String) (input : List Nat) :
    OpOut (Option (List (List Nat))) :=
  match process_remaining_urcs st input with
  | .error e => ⟨.error e, st, [], input⟩
  | .ok (st1, tr1, rest1) =>
    let out := get_ip_try st1 host tr1 rest1
    match out.val with
    | .error .valueError => ⟨.ok none, out.st, out.trace, out.rest⟩
    | v => ⟨v, out.st, out.trace, out.rest⟩

/-! ## C3: fail-fast on ids absent from the local open set -/

/-- C3 (amended): with an in-range id absent from the local open set, and —
for `socket_send`/`socket_receive`, whose membership check runs only after
the pending-URC queue is drained — an empty pending queue, all three calls
return `False` immediately, leave the state unchanged, write nothing to the
transport and consume no input.  `socket_close` checks membership before
touching the queue, so it needs no queue assumption. -/
theorem claim_C3_absent_id_fail_fast (conns : List Int) (id : Int)
    (data : List Nat) (offset : Nat) (lengthArg : Option Nat) (bufLen : Nat)
    (input : List Nat)
    (h0 : 0 ≤ id) (h12 : id ≤ 12) (hmem : id ∉ conns) :
    socket_send ⟨conns, some []⟩ id data offset lengthArg input
      = ⟨.ok false, ⟨conns, some []⟩, [], input⟩ ∧
    socket_receive ⟨conns, some []⟩ id bufLen offset lengthArg input
      = ⟨.ok (PyVal.pyBool false), ⟨conns, some []⟩, [], input⟩ ∧
    (∀ (urcs : Option (List Urc)),
      socket_close ⟨conns, urcs⟩ id input = ⟨.ok false, ⟨conns, urcs⟩, [], input⟩) := by
  refine ⟨?_, ?_, ?_⟩
  · unfold socket_send
    rw [if_neg (not_not_intro ⟨h0, h12⟩), process_remaining_urcs_nil]
    dsimp only
    rw [if_neg hmem]
  · unfold socket_receive
    rw [if_neg (not_not_intro ⟨h0, h12⟩), process_remaining_urcs_nil]
    dsimp only
    rw [if_neg hmem]
  · intro urcs
    unfold socket_close
    rw [if_neg (not_not_intro ⟨h0, h12⟩), if_neg hmem]

/-- C3 witness: the amended theorem at id 5, local set `[0]`. -/
theorem claim_C3_witness :
    socket_send ⟨[0], some []⟩ 5 [72, 105] 0 none [] = ⟨.ok false, ⟨[0], some []⟩, [], []⟩ ∧
    socket_receive ⟨[0], some []⟩ 5 64 0 none [] = ⟨.ok (PyVal.pyBool false), ⟨[0], some []⟩, [], []⟩ ∧
    socket_close ⟨[0], some []⟩ 5 [] = ⟨.ok false, ⟨[0], some []⟩, [], []⟩ := by
  obtain ⟨h1, h2, h3⟩ := claim_C3_absent_id_fail_fast [0] 5 [72, 105] 0 none 64 []
    (by decide) (by decide) (by decide)
  exact ⟨h1, h2, h3 (some [])⟩

/-! ## C4: connection-id allocation -/

lemma findFreeId_spec (inUse conns : List Int) :
    ∀ (d i r : Nat), findFreeId inUse conns i d = some r →
      i ≤ r ∧ r < i + d ∧ (r : Int) ∉ inUse ∧ (r : Int) ∉ conns ∧
      ∀ j : Nat, i ≤ j → j < r → ((j : Int) ∈ inUse ∨ (j : Int) ∈ conns) := by
  intro d
  induction d with
  | zero => intro i r h; simp [findFreeId] at h
  | succ d ih =>
    intro i r h
    simp only [findFreeId] at h
    by_cases hfree : ¬((i : Int) ∈ inUse) ∧ ¬((i : Int) ∈ conns)
    · rw [if_pos hfree] at h
      obtain rfl : i = r := by simpa using h
      exact ⟨le_refl _, by omega, hfree.1, hfree.2,
        fun j hj1 hj2 => absurd (lt_of_le_of_lt hj1 hj2) (lt_irrefl _)⟩
    · rw [if_neg hfree] at h
      obtain ⟨h1, h2, h3, h4, h5⟩ := ih (i+1) r h
      refine ⟨by omega, by omega, h3, h4, fun j hj1 hj2 => ?_⟩
      rcases Nat.eq_or_lt_of_le hj1 with rfl | hlt
      · rcases not_and_or.mp hfree with hmem | hmem
        · exact Or.inl (not_not.mp hmem)
        · exact Or.inr (not_not.mp hmem)
      · exact h5 j (by omega) hj2

/-- A first read that frames a line in the expected set completes
`execute_command` at once. -/
lemma execute_command_first_match (bufLen : Nat) (expectedList : List (List Nat))
    (urcs : Option (List Urc)) (body rest : List Nat)
    (hb : noCRLF body = true) (h1 : 1 ≤ body.length) (h2 : body.length ≤ bufLen)
    (hnq : ¬(8 ≤ body.length ∧ body.take 8 = strBytes "+QIURC: ") ∨
           ¬(17 < body.length ∧ (body.drop 8).take 8 = strBytes "\"closed\""))
    (hmem : body ∈ expectedList) :
    execute_command bufLen expectedList urcs (frameOne body ++ rest)
      = .ok ((true, [body]), urcs, rest) := by
  unfold execute_command
  rw [execCmdFuel_succ]
  rw [show bufLen - List.length ([] : List Nat) = bufLen from rfl]
  rw [read_response_into_pass bufLen urcs body rest hb h1 h2 hnq]
  dsimp only
  rw [if_pos hmem]
  simp

/-- A read on an exhausted stream makes `execute_command` time out with no
responses collected. -/
lemma execute_command_empty (bufLen : Nat) (expectedList : List (List Nat))
    (urcs : Option (List Urc)) :
    execute_command bufLen expectedList urcs [] = .ok ((false, []), urcs, []) :=
  rfl

/-- C4: the allocation in `socket_open` (first conjunct, for any run with a
drained queue that returns an id) yields an id below 12 absent from both the
parsed device listing and the local open set, and minimal — every smaller id
is in the union.  Second conjunct: with all twelve ids locally open, a
successful status listing (reply `OK`) makes `socket_open` raise the
resource-exhaustion error having written only the `AT+QISTATE?` command —
the `AT+QIOPEN` command is never issued. -/
theorem claim_C4_allocation_minimal_free :
    (∀ (conns : List Int) (host : String) (port socket_type : Int)
       (input : List Nat) (id : Nat) (inUse : List Int) (st' : MState)
       (tr : List (List Nat)) (rest : List Nat),
      socket_open ⟨conns, some []⟩ host port socket_type input
        = ⟨.ok (id, inUse), st', tr, rest⟩ →
      id < 12 ∧ (id : Int) ∉ inUse ∧ (id : Int) ∉ conns ∧
      ∀ j : Nat, j < id → ((j : Int) ∈ inUse ∨ (j : Int) ∈ conns)) ∧
    (∀ (host : String) (rest0 : List Nat),
      socket_open ⟨(List.range 12).map (fun n => (n : Int)), some []⟩ host 80 0
          (frameOne (strBytes "OK") ++ rest0)
        = ⟨.error (.lteError "No connection resources available."),
            ⟨(List.range 12).map (fun n => (n : Int)), some []⟩,
            [write_command_chunk (strBytes "AT+QISTATE?")], rest0⟩) := by
  constructor
  · intro conns host port socket_type input id inUse st' tr rest h
    unfold socket_open at h
    by_cases hport : ¬(0 ≤ port ∧ port ≤ 65535)
    · rw [if_pos hport] at h; simp at h
    rw [if_neg hport] at h
    by_cases htype : ¬(socket_type = 0 ∨ socket_type = 1)
    · rw [if_pos htype] at h; simp at h
    rw [if_neg htype] at h
    rw [process_remaining_urcs_nil] at h
    dsimp only at h
    cases hexec : execute_command 1024 [strBytes "OK"] (some []) input with
    | error e => rw [hexec] at h; simp at h
    | ok t =>
      obtain ⟨⟨success, responses⟩, u1, rest2⟩ := t
      rw [hexec] at h
      dsimp only at h
      cases success with
      | false => rw [if_pos (by simp)] at h; simp at h
      | true =>
        rw [if_neg (by simp)] at h
        cases hqs : qistateIds responses with
        | error e => rw [hqs] at h; simp at h
        | ok inUse0 =>
          rw [hqs] at h
          dsimp only at h
          cases hfind : findFreeId inUse0 conns 0 12 with
          | none => rw [hfind] at h; simp at h
          | some newId =>
            rw [hfind] at h
            dsimp only at h
            cases hw1 : wait_response 1024 (strBytes "OK") u1 rest2 with
            | error e => rw [hw1] at h; simp at h
            | ok t1 =>
              obtain ⟨x1, u2, rest3⟩ := t1
              rw [hw1] at h
              cases x1 with
              | none => simp at h
              | some l1 =>
                dsimp only at h
                cases hw2 : wait_response 1024
                    (strBytes ("+QIOPEN: " ++ toString newId ++ ",")) u2 rest3 with
                | error e => rw [hw2] at h; simp at h
                | ok t2 =>
                  obtain ⟨x2, u3, rest4⟩ := t2
                  rw [hw2] at h
                  cases x2 with
                  | none => simp at h
                  | some resp =>
                    dsimp only at h
                    cases hsp : (splitOnByte 44 resp)[1]? with
                    | none => rw [hsp] at h; simp at h
                    | some errFld =>
                      rw [hsp] at h
                      dsimp only at h
                      by_cases herr : errFld ≠ strBytes "0"
                      · rw [if_pos herr] at h; simp at h
                      · rw [if_neg herr] at h
                        simp only [OpOut.mk.injEq, Except.ok.injEq, Prod.mk.injEq] at h
                        obtain ⟨⟨hid, hin⟩, -, -, -⟩ := h
                        subst hid
                        subst hin
                        obtain ⟨-, h2, h3, h4, h5⟩ :=
                          findFreeId_spec _ conns 12 0 _ hfind
                        exact ⟨by omega, h3, h4, fun j hj => h5 j (by omega) hj⟩
  · intro host rest0
    unfold socket_open
    rw [if_neg (not_not_intro ⟨by norm_num, by norm_num⟩)]
    rw [if_neg (not_not_intro (Or.inl rfl))]
    rw [process_remaining_urcs_nil]
    dsimp only
    rw [execute_command_first_match 1024 [strBytes "OK"] (some []) (strBytes "OK")
      rest0 (by decide) (by decide) (by decide) (Or.inl (by decide)) (by simp)]
    dsimp only
    rw [if_neg (not_not_intro rfl)]
    rw [show qistateIds [strBytes "OK"] = .ok [] from by decide]
    dsimp only
    rw [show findFreeId [] ((List.range 12).map (fun n => (n : Int))) 0 12 = none
      from by decide]
    simp

/-- C3 counterexample: `socket_send` on absent id 2 with a pending
`("closed", 1)` event for the still-open connection 1 *does* write to the
transport during the call — the drain issues `AT+QICLOSE=1` before the
membership check — refuting "zero bytes written to the transport during
the call" as stated. -/
theorem claim_C3_counterexample :
    (socket_send ⟨[1], some [Urc.closed 1]⟩ 2 [72, 105] 0 none []).val = .ok false ∧
    (socket_send ⟨[1], some [Urc.closed 1]⟩ 2 [72, 105] 0 none []).trace
      = [write_command_chunk (strBytes "AT+QICLOSE=1")] ∧
    (socket_send ⟨[1], some [Urc.closed 1]⟩ 2 [72, 105] 0 none []).trace ≠ [] := by
  decide

/-- C4 witness: the first conjunct applied to a concrete successful open
(device listing empty, local set empty, id 0 allocated). -/
theorem claim_C4_witness :
    (0 : Nat) < 12 ∧ ((0 : Nat) : Int) ∉ ([] : List Int) ∧
    ((0 : Nat) : Int) ∉ ([] : List Int) ∧
    (∀ j : Nat, j < 0 → ((j : Int) ∈ ([] : List Int) ∨ (j : Int) ∈ ([] : List Int))) :=
  claim_C4_allocation_minimal_free.1 [] "h" 80 0
    (frameOne (strBytes "OK")
      ++ (frameOne (strBytes "OK") ++ frameOne (strBytes "+QIOPEN: 0,0")))
    0 [] ⟨[0], some []⟩
    [write_command_chunk (strBytes "AT+QISTATE?"),
     write_command_chunk (strBytes "AT+QIOPEN=1,0,\"TCP\",\"h\",80,0,0")]
    [] (by decide)

/-! ## C5: deadline expiry produces failure values in the wait primitives,
but `socket_open` converts them into raised errors -/

/-- C5 (amended): the wait primitives resolve deadline expiry to returned
failure values — the line read and `wait_response` return `None`, the
prompt wait returns `False` — and never raise for a timeout; `socket_open`,
however, converts such a failure value into a *raised* `LTEModuleError`
(here: expiry during the `AT+QISTATE?` exchange). -/
theorem claim_C5_timeout_is_value_in_primitives :
    (∀ (cap : Nat) (u : Option (List Urc)),
      read_response_into cap [] u [] = .ok (none, u, [])) ∧
    (∀ (cap : Nat) (expected : List Nat) (u : Option (List Urc)) (input : List Nat),
      read_response_core cap input = none →
      wait_response cap expected u input = .ok (none, u, [])) ∧
    (∀ (expected : List Nat) (idx : Nat), wait_prompt expected idx [] = (false, [])) ∧
    (∀ (conns : List Int) (host : String),
      (socket_open ⟨conns, some []⟩ host 80 0 []).val
        = .error (.lteError "Failed to get socket status")) := by
  refine ⟨fun cap u => rfl, ?_, fun expected idx => rfl, ?_⟩
  · intro cap expected u input hcore
    rw [wait_response_step, read_response_into_step, hcore]
  · intro conns host
    unfold socket_open
    rw [if_neg (not_not_intro ⟨by norm_num, by norm_num⟩)]
    rw [if_neg (not_not_intro (Or.inl rfl))]
    rw [process_remaining_urcs_nil]
    dsimp only
    rw [execute_command_empty]
    dsimp only
    rw [if_pos (by simp)]

/-- C5 witness: the amended theorem at concrete instances (an exhausted
stream, a stream holding a lone non-frame byte, and an exhausted stream
under `socket_open`). -/
theorem claim_C5_witness :
    read_response_into 16 [] (some []) [] = .ok (none, some [], []) ∧
    wait_response 16 [79, 75] (some []) [97] = .ok (none, some [], []) ∧
    wait_prompt [62, 32] 0 [] = (false, []) ∧
    (socket_open ⟨[], some []⟩ "h" 80 0 []).val
      = .error (.lteError "Failed to get socket status") := by
  obtain ⟨h1, h2, h3, h4⟩ := claim_C5_timeout_is_value_in_primitives
  exact ⟨h1 16 (some []), h2 16 [79, 75] (some []) [97] (by decide),
    h3 [62, 32] 0, h4 [] "h"⟩

/-- C5 counterexample: with the deadline expiring before any reply to
`AT+QISTATE?`, `socket_open` raises `LTEModuleError` — a transport timeout
surfacing as an exception, contradicting the claim that for `socket_open`
expiry resolves to a returned failure value and is never raised. -/
theorem claim_C5_counterexample :
    (socket_open ⟨[], some []⟩ "example.com" 80 0 []).val
      = .error (.lteError "Failed to get socket status") := by
  decide

/-! ## C6: short raw read in `socket_receive` -/

/-- C6 (amended): when the transport delivers fewer raw bytes than the
length announced in the `+QIRD: ` reply, `socket_receive` returns the
ordinary failure value `None` (the `and` chain short-circuits before the
final `OK` wait); no exception is raised for the short read. -/
theorem claim_C6_short_read_returns_none (conns : List Int) (id : Int)
    (ds short : List Nat) (n : Nat) (bufLen : Nat)
    (h0 : 0 ≤ id) (h12 : id ≤ 12) (hmem : id ∈ conns)
    (hds : pyInt ds = some (n : Int)) (hdlen : 7 + ds.length ≤ 1024)
    (hshort : short.length < n) (hsbuf : short.length ≤ bufLen)
    (hbuf1 : 1 ≤ bufLen) (hbufmax : bufLen ≤ 1460) :
    (socket_receive ⟨conns, some []⟩ id bufLen 0 none
        (frameOne (strBytes "+QIRD: " ++ ds) ++ short)).val = .ok PyVal.pyNone := by
  obtain ⟨hne, hdig⟩ := pyInt_shape hds
  have hdslen : 1 ≤ ds.length := List.length_pos.mpr hne
  have hblen : (strBytes "+QIRD: " ++ ds).length = 7 + ds.length := by
    rw [List.length_append]
    rfl
  have hbody : noCRLF (strBytes "+QIRD: " ++ ds) = true := by
    simp only [noCRLF, List.all_append, Bool.and_eq_true]
    exact ⟨by decide, by simpa [noCRLF] using hdig⟩
  have hnq : ¬(8 ≤ (strBytes "+QIRD: " ++ ds).length ∧
      (strBytes "+QIRD: " ++ ds).take 8 = strBytes "+QIURC: ") := by
    rintro ⟨-, hq⟩
    have h7 := congrArg (List.take 7) hq
    rw [List.take_take] at h7
    norm_num at h7
    rw [List.take_append_of_le_length (by decide)] at h7
    exact absurd h7 (by decide)
  have htk7 : (strBytes "+QIRD: " ++ ds).take 7 = strBytes "+QIRD: " := by
    rw [List.take_append_of_le_length (by decide)]
    decide
  have hdp7 : (strBytes "+QIRD: " ++ ds).drop 7 = ds := by
    rw [show (7 : Nat) = (strBytes "+QIRD: ").length from rfl, List.drop_left]
  unfold socket_receive
  rw [if_neg (not_not_intro ⟨h0, h12⟩), process_remaining_urcs_nil]
  dsimp only
  rw [if_pos hmem]
  dsimp only [Option.getD]
  rw [if_neg (by omega), if_neg (not_not_intro hbufmax)]
  rw [wait_response_step]
  rw [read_response_into_pass 1024 (some []) _ short hbody
    (by rw [hblen]; omega) (by rw [hblen]; omega) (Or.inl hnq)]
  dsimp only
  rw [if_pos ⟨by rw [hblen]; simp [strBytes], htk7⟩]
  dsimp only
  rw [hdp7, hds]
  dsimp only
  rw [if_neg (by simp; omega)]
  have hbr : min (min (Int.toNat (n : Int)) (min bufLen (bufLen - 0)))
      short.length = short.length := by
    simp only [Int.toNat_natCast, Nat.sub_zero, min_self]
    omega
  rw [hbr]
  rw [if_neg (by simp; omega)]

/-- C6 witness: the amended theorem at announced length 3 and only 2
delivered bytes. -/
theorem claim_C6_witness :
    (socket_receive ⟨[1], some []⟩ 1 16 0 none
        (frameOne (strBytes "+QIRD: " ++ [51]) ++ [104, 105])).val
      = .ok PyVal.pyNone :=
  claim_C6_short_read_returns_none [1] 1 [51] [104, 105] 3 16
    (by decide) (by decide) (by decide) (by decide) (by decide)
    (by decide) (by decide) (by decide) (by decide)

/-- C6 counterexample: `+QIRD: ` announces 5 bytes but only 2 arrive; the
call *returns* `None` — no exception is raised — refuting the claim that a
short read raises a hard unrecoverable error. -/
theorem claim_C6_counterexample :
    (socket_receive ⟨[0], some []⟩ 0 10 0 none
        (frameOne (strBytes "+QIRD: 5") ++ [97, 98])).val = .ok PyVal.pyNone := by
  decide

/-! ## C10: calls before the first `turn_on_or_reset` -/

/-- C10 (amended): before `turn_on_or_reset` first runs, `self.__urcs` is
`None`, so `socket_open`, `socket_send`, `socket_receive` and
`get_ip_address` all raise `TypeError` when they iterate the queue — but
`socket_is_connected` does *not*: Python's `and` short-circuits on the
empty `self.__connections`, so it returns `False` without touching
`self.__urcs`. -/
theorem claim_C10_pre_init_calls :
    (∀ (host : String) (port socket_type : Int) (input : List Nat),
      0 ≤ port → port ≤ 65535 → (socket_type = 0 ∨ socket_type = 1) →
      (socket_open ⟨[], none⟩ host port socket_type input).val = .error .typeError) ∧
    (∀ (id : Int) (data : List Nat) (offset : Nat) (lengthArg : Option Nat)
       (input : List Nat), 0 ≤ id → id ≤ 12 →
      (socket_send ⟨[], none⟩ id data offset lengthArg input).val = .error .typeError) ∧
    (∀ (id : Int) (bufLen offset : Nat) (lengthArg : Option Nat) (input : List Nat),
      0 ≤ id → id ≤ 12 →
      (socket_receive ⟨[], none⟩ id bufLen offset lengthArg input).val
        = .error .typeError) ∧
    (∀ (host : String) (input : List Nat),
      (get_ip_address ⟨[], none⟩ host input).val = .error .typeError) ∧
    (∀ (id : Int), socket_is_connected [] none id = .ok false) := by
  refine ⟨?_, ?_, ?_, fun host input => rfl, fun id => ?_⟩
  · intro host port socket_type input hp1 hp2 ht
    unfold socket_open
    rw [if_neg (not_not_intro ⟨hp1, hp2⟩), if_neg (not_not_intro ht)]
    rw [show process_remaining_urcs ⟨[], none⟩ input = .error .typeError from rfl]
  · intro id data offset lengthArg input h0 h12
    unfold socket_send
    rw [if_neg (not_not_intro ⟨h0, h12⟩)]
    rw [show process_remaining_urcs ⟨[], none⟩ input = .error .typeError from rfl]
  · intro id bufLen offset lengthArg input h0 h12
    unfold socket_receive
    rw [if_neg (not_not_intro ⟨h0, h12⟩)]
    rw [show process_remaining_urcs ⟨[], none⟩ input = .error .typeError from rfl]
  · unfold socket_is_connected
    rw [if_neg (List.not_mem_nil id)]

/-- C10 witness: the amended theorem at concrete pre-init calls. -/
theorem claim_C10_witness :
    (socket_open ⟨[], none⟩ "h" 80 0 []).val = .error .typeError ∧
    (socket_send ⟨[], none⟩ 0 [65] 0 none []).val = .error .typeError ∧
    (socket_receive ⟨[], none⟩ 0 16 0 none []).val = .error .typeError ∧
    (get_ip_address ⟨[], none⟩ "h" []).val = .error .typeError ∧
    socket_is_connected [] none 0 = .ok false := by
  obtain ⟨h1, h2, h3, h4, h5⟩ := claim_C10_pre_init_calls
  exact ⟨h1 "h" 80 0 [] (by norm_num) (by norm_num) (Or.inl rfl),
    h2 0 [65] 0 none [] (by norm_num) (by norm_num),
    h3 0 16 0 none [] (by norm_num) (by norm_num), h4 "h" [], h5 0⟩

/-- C10 counterexample: `socket_is_connected` called before the first
`turn_on_or_reset` returns `False` — it does not raise `TypeError`,
because the id is not in the (empty) local connection list and Python's
`and` short-circuits before the membership test on `None`. -/
theorem claim_C10_counterexample :
    socket_is_connected [] none 3 = .ok false ∧
    socket_is_connected [] none 3 ≠ .error .typeError := by
  decide

/-! ## Modem lifecycle: `LTEModule.turn_on_or_reset` (C1)

The GPIO pulses of `turn_on`/`reset` and the stale-byte drain of `reset`
precede the scripted receive stream and are abstracted away; `busy` is the
value of `is_busy()` at entry and `busyCleared` tells whether `wait_busy`
succeeds on the turn-on path. -/

/-- The `for trial in range(15)` loops of `turn_on`/`reset` waiting for the
boot-ready line `RDY`. -/
def rdyTrials : Nat → Option (List Urc) → List Nat →
    Except PyErr (Bool × Option (List Urc) × List Nat)
  | 0, u, input => .ok (false, u, input)
  | k+1, u, input =>
    match wait_response 1024 (strBytes "RDY") u input with
    | .error e => .error e
    | .ok (some _, u1, rest) => .ok (true, u1, rest)
    | .ok (none, u1, rest) => rdyTrials k u1 rest

/-- `reset()` after the pin pulse and stale-byte drain. -/
def lte_reset (u : Option (List Urc)) (input : List Nat) :
    Except PyErr (Bool × Option (List Urc) × List Nat) :=
  rdyTrials 15 u input

/-- `turn_on()` after the power-key pulse: fails if the module stays busy,
else waits for `RDY`. -/
def lte_turn_on (busyCleared : Bool) (u : Option (List Urc)) (input : List Nat) :
    Except PyErr (Bool × Option (List Urc) × List Nat) :=
  if ¬busyCleared then .ok (false, u, input)
  else rdyTrials 15 u input

/-- The unbounded SIM-ready poll: `AT+CPIN?` until the command succeeds;
an empty response list (nothing arrived before the 1000 ms deadline) is a
hard `False`.  Each iteration writes the command again, so the trace is
threaded. -/
def cpinFuel : Nat → Option (List Urc) → List Nat → List (List Nat) →
    Except PyErr (Bool × Option (List Urc) × List (List Nat) × List Nat)
  | 0, _, _, _ => .error .outOfFuel
  | fuel+1, u, input, tr =>
    let tr1 := tr ++ [write_command_chunk (strBytes "AT+CPIN?")]
    match execute_command 1024 [strBytes "OK"] u input with
    | .error e => .error e
    | .ok ((result, responses), u1, rest) =>
      if responses.length = 0 then .ok (false, u1, tr1, rest)
      else if result then .ok (true, u1, tr1, rest)
      else cpinFuel fuel u1 rest tr1

/-- `turn_on_or_reset()`: clears the URC queue, boots (turn-on or reset
path), then the liveness check `AT`, `ATE0`, `AT+QURCCFG`, `AT+QSCLK=1`
(accepting `OK` or `ERROR`), and finally the SIM-ready poll. -/
def turn_on_or_reset (conns : List Int) (busy busyCleared : Bool)
    (input : List Nat) : OpOut Bool :=
  let u0 : Option (List Urc) := some []
  match (if busy then lte_turn_on busyCleared u0 input else lte_reset u0 input) with
  | .error e => ⟨.error e, ⟨conns, u0⟩, [], input⟩
  | .ok (false, u1, rest1) => ⟨.ok false, ⟨conns, u1⟩, [], rest1⟩
  | .ok (true, u1, rest1) =>
    let tr1 := [write_command_chunk (strBytes "AT")]
    match wait_response 1024 (strBytes "OK") u1 rest1 with
    | .error e => ⟨.error e, ⟨conns, u1⟩, tr1, rest1⟩
    | .ok (none, u2, rest2) => ⟨.ok false, ⟨conns, u2⟩, tr1, rest2⟩
    | .ok (some _, u2, rest2) =>
      let tr2 := tr1 ++ [write_command_chunk (strBytes "ATE0")]
      match wait_response 1024 (strBytes "OK") u2 rest2 with
      | .error e => ⟨.error e, ⟨conns, u2⟩, tr2, rest2⟩
      | .ok (none, u3, rest3) => ⟨.ok false, ⟨conns, u3⟩, tr2, rest3⟩
      | .ok (some _, u3, rest3) =>
        let tr3 := tr2 ++ [write_command_chunk (strBytes "AT+QURCCFG=\"urcport\",\"uart1\"")]
        match wait_response 1024 (strBytes "OK") u3 rest3 with
        | .error e => ⟨.error e, ⟨conns, u3⟩, tr3, rest3⟩
        | .ok (none, u4, rest4) => ⟨.ok false, ⟨conns, u4⟩, tr3, rest4⟩
        | .ok (some _, u4, rest4) =>
          let tr4 := tr3 ++ [write_command_chunk (strBytes "AT+QSCLK=1")]
          match execute_command 1024 [strBytes "OK", strBytes "ERROR"] u4 rest4 with
          | .error e => ⟨.error e, ⟨conns, u4⟩, tr4, rest4⟩
          | .ok ((result, _), u5, rest5) =>
            if ¬result then ⟨.ok false, ⟨conns, u5⟩, tr4, rest5⟩
            else
              match cpinFuel (rest5.length + 1) u5 rest5 tr4 with
              | .error e => ⟨.error e, ⟨conns, u5⟩, tr4, rest5⟩
              | .ok (b, u6, tr6, rest6) => ⟨.ok b, ⟨conns, u6⟩, tr6, rest6⟩

/-- A framed `OK` reply. -/
def okFrame : List Nat := frameOne (strBytes "OK")

/-- The five-reply transcript of the claim: `RDY` then four `OK`s. -/
def bootTranscript5 : List Nat :=
  frameOne (strBytes "RDY") ++ (okFrame ++ (okFrame ++ (okFrame ++ okFrame)))

/-- The six-reply transcript the code actually consumes: `RDY` then five
`OK`s (boot ready, liveness check, echo-disable, URC-port, clock mode,
SIM-ready). -/
def bootTranscript6 : List Nat :=
  frameOne (strBytes "RDY")
    ++ (okFrame ++ (okFrame ++ (okFrame ++ (okFrame ++ okFrame))))

/-- Six replies with `ERROR` injected in place of the echo-disable `OK`. -/
def bootTranscriptEchoErr : List Nat :=
  frameOne (strBytes "RDY")
    ++ (okFrame ++ (frameOne (strBytes "ERROR") ++ (okFrame ++ (okFrame ++ okFrame))))

/-- Six replies with `ERROR` injected in place of the clock-mode `OK`. -/
def bootTranscriptClockErr : List Nat :=
  frameOne (strBytes "RDY")
    ++ (okFrame ++ (okFrame ++ (okFrame ++ (frameOne (strBytes "ERROR") ++ okFrame))))

/-- C1 (amended): the handshake succeeds on the *six*-reply transcript
`RDY, OK (liveness check AT), OK (ATE0), OK (AT+QURCCFG), OK (AT+QSCLK=1),
OK (AT+CPIN?)`, consuming all six replies and issuing exactly those five
commands in order (first conjunct).  An `ERROR` in place of the
echo-disable `OK` makes the whole operation fail — each `OK`-wait skips the
unexpected token and steals a later `OK`, so the SIM-ready query finds no
reply (second conjunct; note the SIM-ready command is still issued).  An
`ERROR` in place of the clock-mode `OK` does **not** abort: `ERROR` is in
that command's accepted-reply list, and the run still succeeds (third
conjunct). -/
theorem claim_C1_handshake_consumes_six_replies :
    ((turn_on_or_reset [] false true bootTranscript6).val = .ok true ∧
     (turn_on_or_reset [] false true bootTranscript6).rest = [] ∧
     (turn_on_or_reset [] false true bootTranscript6).trace =
       [write_command_chunk (strBytes "AT"), write_command_chunk (strBytes "ATE0"),
        write_command_chunk (strBytes "AT+QURCCFG=\"urcport\",\"uart1\""),
        write_command_chunk (strBytes "AT+QSCLK=1"),
        write_command_chunk (strBytes "AT+CPIN?")]) ∧
    ((turn_on_or_reset [] false true bootTranscriptEchoErr).val = .ok false) ∧
    ((turn_on_or_reset [] false true bootTranscriptClockErr).val = .ok true) := by
  decide

/-- C1 counterexample: on the claim's own five-reply transcript (`RDY` and
four `OK`s) the operation consumes all five replies and *fails*: the fifth
`OK` is taken by the clock-mode command and the SIM-ready query times out
with no response — because the code also performs a liveness-check `AT`
before disabling the echo, which the claim does not count. -/
theorem claim_C1_counterexample :
    (turn_on_or_reset [] false true bootTranscript5).val = .ok false ∧
    (turn_on_or_reset [] false true bootTranscript5).rest = [] := by
  decide

end WioLte
